import Mathlib

/-!
# auto-dns-refresher: reconciliation loop of `main.go`

A shallow embedding of `src/main.go`.  The four functions of the program
(`getExternalIP`, `getARecordFromCloudDNS`, `setARecord`, `postToGoogleChat`)
and the loop of `main` are translated as state-passing functions over a
`World`: the contents of the managed zone, the scripted answers of the
outside services, and a log of the calls made so far.

Console output (`fmt.Println`) is not part of the model.
-/

namespace DnsRefresher

/-! ## Data model -/

/-- Record set of the DNS API (`dns.ResourceRecordSet`), with the four fields the program uses.
The field `Typ` is the field `Type` of the source. -/
structure ResourceRecordSet where
  Name : String
  Typ : String
  Ttl : Int
  Rrdatas : List String
deriving DecidableEq, Repr

/-- Change of the DNS API (`dns.Change`): record sets to add and record sets to delete. -/
structure Change where
  Additions : List ResourceRecordSet
  Deletions : List ResourceRecordSet
deriving DecidableEq, Repr

/-- Answer of the IP echo service to one call of `getExternalIP`. -/
inductive EchoResp where
  | getFailed (msg : String)
  | readFailed (msg : String)
  | body (text : String)
deriving DecidableEq, Repr

/-- Answer of the chat webhook to one call of `postToGoogleChat`. -/
inductive ChatResp where
  | postFailed (msg : String)
  | status (code : Nat) (text : String)
deriving DecidableEq, Repr

/-- Calls observed during a run.  The first four are entries into the functions of the program,
the next three are calls of the DNS client library together with their outcome
(`ok = false` is a returned error), the last is `time.Sleep`. -/
inductive Event where
  | resolve
  | read (projectID managedZone domain : String)
  | write (projectID managedZone domain ip : String)
  | notify (webhookURL message : String)
  | newService (ok : Bool)
  | list (ok : Bool)
  | create (change : Change) (ok : Bool)
  | sleep (minutes : Int)
deriving DecidableEq, Repr

/-- A provider call that returned an error. -/
def Event.failed : Event → Bool
  | .newService ok => !ok
  | .list ok => !ok
  | .create _ ok => !ok
  | _ => false

/-- A DNS write: an entry into `setARecord` or a submitted Change. -/
def Event.isWrite : Event → Bool
  | .write _ _ _ _ => true
  | .create _ _ => true
  | _ => false

/-- State of the outside world.  `zone` is the content of the managed zone; it changes only
when the provider accepts a Change.  `svcErrs`, `listErrs`, `createErrs` script the error (if any)
of the successive calls of `dns.NewService`, `ResourceRecordSets.List` and `Changes.Create`;
`chatResps` scripts the answers of the webhook.  An exhausted script answers with success.
`trace` logs the calls made, oldest first. -/
structure World where
  zone : List ResourceRecordSet
  svcErrs : List (Option String)
  listErrs : List (Option String)
  createErrs : List (Option String)
  chatResps : List ChatResp
  trace : List Event
deriving DecidableEq, Repr

/-- Append one event to the log. -/
def World.log (w : World) (e : Event) : World :=
  { w with trace := w.trace ++ [e] }

/-- Events logged between the world `w` and the later world `w2`. -/
def newEvents (w w2 : World) : List Event :=
  w2.trace.drop w.trace.length

/-- Submitted Changes among a list of events, in order. -/
def changesOf : List Event → List Change
  | [] => []
  | .create c _ :: es => c :: changesOf es
  | _ :: es => changesOf es

/-- How one pass over the loop body, or the whole loop, ended: `next` is normal completion
(the loop goes on), `returned` is the `return` of `main`, `panicked` is a Go run-time panic
(index out of range), which ends the process. -/
inductive Outcome where
  | next
  | returned
  | panicked
deriving DecidableEq, Repr

/-- Settings read from the environment at the start of `main`; `domains` is
`strings.Split(os.Getenv("DOMAINS"), ",")`. -/
structure Config where
  domains : List String
  projectID : String
  managedZone : String
  webhookURL : String
  waitInMinute : Int
deriving DecidableEq, Repr

/-! ## The provider -/

/-- Modelled from the spec: the change API of the DNS provider, an outside collaborator
(spec section 6, and the zone model named in the idempotence property).  A Change is applied
atomically: every record set of `Deletions` has to be present in the zone exactly as given,
otherwise the provider rejects the Change (`none`); on acceptance the deleted record sets are
removed and the added ones inserted. -/
def applyChange (zone : List ResourceRecordSet) (c : Change) : Option (List ResourceRecordSet) :=
  if ∀ d ∈ c.Deletions, d ∈ zone then
    some (c.Deletions.foldl (fun z d => z.erase d) zone ++ c.Additions)
  else
    none

/-- Next answer of an error script: the error of the coming call, `none` for success.
An exhausted script answers with success. -/
def nextErr : List (Option String) → Option String
  | [] => none
  | r :: _ => r

/-- Call `dns.NewService(ctx, option.WithCredentialsFile("key.json"))`: the next scripted
outcome, `none` for success. -/
def newService (w : World) : Option String × World :=
  let r := nextErr w.svcErrs
  (r, { w with svcErrs := w.svcErrs.tail }.log (.newService r.isNone))

/-- Call `dnsService.ResourceRecordSets.List(projectID, managedZone).Context(ctx).Do()`:
the record sets of the zone, or the scripted error. -/
def listRrsets (w : World) : Except String (List ResourceRecordSet) × World :=
  let r := nextErr w.listErrs
  let w := { w with listErrs := w.listErrs.tail }.log (.list r.isNone)
  match r with
  | none => (.ok w.zone, w)
  | some e => (.error e, w)

/-- Call `dnsService.Changes.Create(projectID, managedZone, change).Context(ctx).Do()`:
a scripted error leaves the zone as it is; otherwise the provider applies the Change or
rejects it. -/
def changesCreate (c : Change) (w : World) : Option String × World :=
  let r := nextErr w.createErrs
  let w := { w with createErrs := w.createErrs.tail }
  match r with
  | some e => (some e, w.log (.create c false))
  | none =>
    match applyChange w.zone c with
    | none => (some "precondition not met", w.log (.create c false))
    | some z => (none, { w with zone := z }.log (.create c true))

/-! ## The program -/

/-- Source `getExternalIP` (lines 19-32): the body of the answer, verbatim, or the error of
`http.Get` or of `io.ReadAll`. -/
def getExternalIP (r : EchoResp) (w : World) : Except String String × World :=
  let w := w.log .resolve
  match r with
  | .getFailed e => (.error e, w)
  | .readFailed e => (.error e, w)
  | .body ip => (.ok ip, w)

/-- Lines 46-51 of `getARecordFromCloudDNS`: the loop appending the data of each record set
of type `"A"` named `domain + "."`. -/
def collectARecords (rrsets : List ResourceRecordSet) (domain : String) : List String :=
  rrsets.foldl
    (fun aRecords rrset =>
      if rrset.Typ = "A" ∧ rrset.Name = domain ++ "." then aRecords ++ rrset.Rrdatas
      else aRecords)
    []

/-- Source `getARecordFromCloudDNS` (lines 34-54). -/
def getARecordFromCloudDNS (projectID managedZone domain : String) (w : World) :
    Except String (List String) × World :=
  let w := w.log (.read projectID managedZone domain)
  match newService w with
  | (some err, w) => (.error ("failed to create DNS service: " ++ err), w)
  | (none, w) =>
    match listRrsets w with
    | (.error err, w) => (.error ("failed to list resource record sets: " ++ err), w)
    | (.ok rrsets, w) => (.ok (collectARecords rrsets domain), w)

/-- Lines 69-89 of `setARecord`: the Change built from the existing records. -/
def buildChange (domain ip : String) (existingRecords : List String) : Change :=
  let rrset : ResourceRecordSet :=
    { Name := domain ++ ".", Typ := "A", Ttl := 300, Rrdatas := [ip] }
  let change : Change := { Additions := [], Deletions := [] }
  let change :=
    if existingRecords.length > 0 then
      let oldRrset : ResourceRecordSet :=
        { Name := domain ++ ".", Typ := "A", Ttl := 300, Rrdatas := existingRecords }
      { change with Deletions := [oldRrset] }
    else change
  { change with Additions := [rrset] }

/-- Source `setARecord` (lines 56-97). -/
def setARecord (projectID managedZone domain ip : String) (w : World) :
    Except String Unit × World :=
  let w := w.log (.write projectID managedZone domain ip)
  match newService w with
  | (some err, w) => (.error ("failed to create DNS service: " ++ err), w)
  | (none, w) =>
    match getARecordFromCloudDNS projectID managedZone domain w with
    | (.error err, w) => (.error ("failed to get existing A records: " ++ err), w)
    | (.ok existingRecords, w) =>
      match changesCreate (buildChange domain ip existingRecords) w with
      | (some err, w) => (.error ("failed to create DNS change: " ++ err), w)
      | (none, w) => (.ok (), w)

/-- Source `postToGoogleChat` (lines 99-117).  `json.Marshal` of a string map does not fail.
An exhausted script answers `200 OK`. -/
def postToGoogleChat (webhookURL message : String) (w : World) : Except String Unit × World :=
  let resp := w.chatResps.head?
  let w := { w with chatResps := w.chatResps.tail }.log (.notify webhookURL message)
  match resp with
  | none => (.ok (), w)
  | some (.postFailed err) => (.error ("failed to send POST request: " ++ err), w)
  | some (.status code text) =>
    if code ≠ 200 then (.error ("received non-OK response: " ++ text), w)
    else (.ok (), w)

/-- Body of the loop over the domains in `main` (lines 140-156).  After a failed read the
source goes on with the nil slice it received; indexing an empty slice at line 146 panics. -/
def loopBody (cfg : Config) (ip domain : String) (w : World) : Outcome × World :=
  let (aRecords, w) :=
    match getARecordFromCloudDNS cfg.projectID cfg.managedZone domain w with
    | (.error err, w) => (([] : List String), (postToGoogleChat cfg.webhookURL err w).2)
    | (.ok aRecords, w) => (aRecords, w)
  match aRecords with
  | [] => (.panicked, w)
  | first :: _ =>
    if first = ip then (.next, w)
    else
      let w := (postToGoogleChat cfg.webhookURL
        ("Setting A records for " ++ domain ++ " to " ++ ip) w).2
      match setARecord cfg.projectID cfg.managedZone domain ip w with
      | (.error err, w) => (.next, (postToGoogleChat cfg.webhookURL err w).2)
      | (.ok _, w) => (.next, w)

/-- The loop `for _, domain := range domains` of `main` (lines 139-157). -/
def reconcile (cfg : Config) (ip : String) : List String → World → Outcome × World
  | [], w => (.next, w)
  | domain :: rest, w =>
    match loopBody cfg ip domain w with
    | (.next, w) => reconcile cfg ip rest w
    | (o, w) => (o, w)

/-- The endless loop of `main` (lines 131-159), observed for as many cycles as there are
scripted answers of the IP echo service: each cycle consumes one.  When the script is used
up the loop is still running (`next`). -/
def mainLoop (cfg : Config) : List EchoResp → World → Outcome × World
  | [], w => (.next, w)
  | r :: rs, w =>
    match getExternalIP r w with
    | (.error err, w) => (.returned, (postToGoogleChat cfg.webhookURL err w).2)
    | (.ok ip, w) =>
      match reconcile cfg ip cfg.domains w with
      | (.next, w) => mainLoop cfg rs (w.log (.sleep cfg.waitInMinute))
      | (o, w) => (o, w)

/-- Source `main` (lines 119-160).  `atoiErr` is the error, if any, of
`strconv.Atoi(os.Getenv("WAIT_IN_MINUTE"))`: with an error `main` prints it and returns before
the loop starts. -/
def main (cfg : Config) (atoiErr : Option String) (echo : List EchoResp) (w : World) :
    Outcome × World :=
  match atoiErr with
  | some _ => (.returned, w)
  | none => mainLoop cfg echo w

/-! ## Reference descriptions -/

/-- Reading of the spec (section 4.2): the data values of the record sets of type `"A"` named
`domain + "."`, concatenated in list order. -/
def matchingValues (rrsets : List ResourceRecordSet) (domain : String) : List String :=
  ((rrsets.filter (fun rrset => rrset.Typ = "A" ∧ rrset.Name = domain ++ ".")).map
    (fun rrset => rrset.Rrdatas)).flatten

/-- World after a call of `getARecordFromCloudDNS` in which client creation and listing
both succeeded. -/
def World.afterRead (w : World) (projectID managedZone domain : String) : World :=
  { w with
    svcErrs := w.svcErrs.tail
    listErrs := w.listErrs.tail
    trace := w.trace ++ [.read projectID managedZone domain, .newService true, .list true] }

/-- World after a call of `postToGoogleChat`, whatever the webhook answered. -/
def World.afterNotify (w : World) (webhookURL message : String) : World :=
  { w with chatResps := w.chatResps.tail, trace := w.trace ++ [.notify webhookURL message] }

/-- The first value the zone holds for the domain is the resolved ip: the case in which the
loop skips the domain. -/
def settled (ip : String) (zone : List ResourceRecordSet) (d : String) : Prop :=
  (collectARecords zone d).head? = some ip

/-- Zone on which a pass over the domains writes nothing: the domains are settled one after
the other, up to the end of the list or up to a first domain with no value at all. -/
def quiescent (ip : String) (zone : List ResourceRecordSet) : List String → Prop
  | [] => True
  | d :: ds => collectARecords zone d = [] ∨ (settled ip zone d ∧ quiescent ip zone ds)

/-! ## Sample data -/

/-- Settings of the example of the spec. -/
def cfgEx : Config :=
  { domains := ["a.example.com", "b.example.com"], projectID := "proj", managedZone := "zone",
    webhookURL := "hook", waitInMinute := 5 }

/-- World with the given zone and no scripted failure. -/
def worldOf (zone : List ResourceRecordSet) : World :=
  { zone := zone, svcErrs := [], listErrs := [], createErrs := [], chatResps := [], trace := [] }

/-- Zone of the example of the spec: one A record for `a.example.com`, none for `b.example.com`. -/
def zoneEx : List ResourceRecordSet :=
  [{ Name := "a.example.com.", Typ := "A", Ttl := 300, Rrdatas := ["1.2.3.4"] }]

/-- World of the example in which the credentials file cannot be read: the first call of
`dns.NewService` fails. -/
def worldNoKey : World :=
  { worldOf zoneEx with svcErrs := [some "open key.json: no such file or directory"] }

/-- Zone in which `a.example.com` has two values, the second one being `5.6.7.8`. -/
def zoneStale : List ResourceRecordSet :=
  [{ Name := "a.example.com.", Typ := "A", Ttl := 300, Rrdatas := ["9.9.9.9", "5.6.7.8"] }]

/-- Zone in which the A record of `a.example.com` has a time to live other than 300. -/
def zoneTtl600 : List ResourceRecordSet :=
  [{ Name := "a.example.com.", Typ := "A", Ttl := 600, Rrdatas := ["1.2.3.4"] }]

/-- Zone in which both domains of the example have an A record. -/
def zoneBoth : List ResourceRecordSet :=
  [{ Name := "a.example.com.", Typ := "A", Ttl := 300, Rrdatas := ["1.2.3.4"] },
   { Name := "b.example.com.", Typ := "A", Ttl := 300, Rrdatas := ["9.9.9.9", "5.6.7.8"] }]

/-- World of the example in which the webhook answers every call with an error status. -/
def worldChatDown : World :=
  { worldOf zoneEx with
    chatResps := [.status 500 "500 Internal Server Error", .status 500 "500 Internal Server Error"] }

/-! ## Basic facts about the four functions -/

theorem post_snd (url m : String) (w : World) :
    (postToGoogleChat url m w).2 = w.afterNotify url m := by
  unfold postToGoogleChat World.afterNotify World.log
  rcases h : w.chatResps.head? with _ | ⟨_ | ⟨code, text⟩⟩ <;> simp
  split <;> rfl

theorem foldl_collect (rrsets : List ResourceRecordSet) (domain : String) (acc : List String) :
    rrsets.foldl
      (fun aRecords rrset =>
        if rrset.Typ = "A" ∧ rrset.Name = domain ++ "." then aRecords ++ rrset.Rrdatas
        else aRecords) acc = acc ++ matchingValues rrsets domain := by
  induction rrsets generalizing acc with
  | nil => simp [matchingValues]
  | cons rr rest ih =>
    simp only [List.foldl_cons, ih]
    by_cases h : rr.Typ = "A" ∧ rr.Name = domain ++ "."
    · simp [matchingValues, h]
    · simp [matchingValues, h]

theorem collect_eq (rrsets : List ResourceRecordSet) (domain : String) :
    collectARecords rrsets domain = matchingValues rrsets domain := by
  simp [collectARecords, foldl_collect]

theorem gar_ok_iff (pid mz d : String) (w : World) (E : List String) :
    (getARecordFromCloudDNS pid mz d w).1 = .ok E ↔
      nextErr w.svcErrs = none ∧ nextErr w.listErrs = none ∧
        E = collectARecords w.zone d := by
  unfold getARecordFromCloudDNS newService listRrsets World.log
  rcases h1 : nextErr w.svcErrs with _ | e1 <;> rcases h2 : nextErr w.listErrs with _ | e2 <;>
    simp [h1, h2, eq_comm]

theorem gar_of_ok (pid mz d : String) (w : World)
    (h1 : nextErr w.svcErrs = none) (h2 : nextErr w.listErrs = none) :
    getARecordFromCloudDNS pid mz d w = (.ok (collectARecords w.zone d), w.afterRead pid mz d) := by
  unfold getARecordFromCloudDNS newService listRrsets World.log World.afterRead
  simp [h1, h2]

theorem buildChange_eq (d ip : String) (E : List String) :
    buildChange d ip E =
      { Additions := [{ Name := d ++ ".", Typ := "A", Ttl := 300, Rrdatas := [ip] }],
        Deletions := if E = [] then []
          else [{ Name := d ++ ".", Typ := "A", Ttl := 300, Rrdatas := E }] } := by
  cases E <;> simp [buildChange]

/-! ## The zone under a replacing Change -/

theorem dot_inj {a b : String} (h : a ++ "." = b ++ ".") : a = b := by
  have h2 := congrArg String.data h
  simp only [String.data_append] at h2
  exact String.ext (List.append_cancel_right h2)

theorem mv_append (l1 l2 : List ResourceRecordSet) (d : String) :
    matchingValues (l1 ++ l2) d = matchingValues l1 d ++ matchingValues l2 d := by
  simp [matchingValues]

theorem mv_cons (rr : ResourceRecordSet) (l : List ResourceRecordSet) (d : String) :
    matchingValues (rr :: l) d =
      (if rr.Typ = "A" ∧ rr.Name = d ++ "." then rr.Rrdatas else []) ++ matchingValues l d := by
  by_cases h : rr.Typ = "A" ∧ rr.Name = d ++ "." <;> simp [matchingValues, h]

theorem mv_erase_other (l : List ResourceRecordSet) (rr : ResourceRecordSet) (d : String)
    (h : ¬ (rr.Typ = "A" ∧ rr.Name = d ++ ".")) :
    matchingValues (l.erase rr) d = matchingValues l d := by
  by_cases hm : rr ∈ l
  · obtain ⟨l1, l2, _, h1, h2⟩ := List.exists_erase_eq hm
    rw [h2, h1, mv_append, mv_append, mv_cons, if_neg h]
    simp
  · rw [List.erase_of_not_mem hm]

theorem mv_replace_same (zone : List ResourceRecordSet) (d ip : String) (E : List String)
    (hE : E = matchingValues zone d)
    (hm : ({ Name := d ++ ".", Typ := "A", Ttl := 300, Rrdatas := E } : ResourceRecordSet) ∈ zone) :
    matchingValues
      (zone.erase { Name := d ++ ".", Typ := "A", Ttl := 300, Rrdatas := E } ++
        [{ Name := d ++ ".", Typ := "A", Ttl := 300, Rrdatas := [ip] }]) d = [ip] := by
  obtain ⟨l1, l2, _, h1, h2⟩ := List.exists_erase_eq hm
  rw [h2, mv_append, mv_append]
  rw [h1, mv_append, mv_cons] at hE
  simp only [and_self, if_true] at hE
  have hlen := congrArg List.length hE
  simp only [List.length_append] at hlen
  have e1 : matchingValues l1 d = [] := List.length_eq_zero.1 (by omega)
  have e2 : matchingValues l2 d = [] := List.length_eq_zero.1 (by omega)
  rw [e1, e2, mv_cons]
  simp [matchingValues]

theorem mv_replace_other (zone : List ResourceRecordSet) (d d2 ip : String) (E : List String)
    (hd : d2 ≠ d) :
    matchingValues
      (zone.erase { Name := d ++ ".", Typ := "A", Ttl := 300, Rrdatas := E } ++
        [{ Name := d ++ ".", Typ := "A", Ttl := 300, Rrdatas := [ip] }]) d2 =
      matchingValues zone d2 := by
  have hno : ¬ (d ++ "." = d2 ++ ".") := fun h => hd (dot_inj h).symm
  rw [mv_append, mv_erase_other _ _ _ (by simp [hno]), mv_cons]
  simp [hno, matchingValues]

theorem applyChange_replace (zone : List ResourceRecordSet) (a del : ResourceRecordSet)
    (z : List ResourceRecordSet) :
    applyChange zone { Additions := [a], Deletions := [del] } = some z ↔
      del ∈ zone ∧ z = zone.erase del ++ [a] := by
  unfold applyChange
  by_cases h : del ∈ zone <;> simp [h, eq_comm]

/-! ## The log only grows -/

theorem newEvents_of_append {w w2 : World} {evs : List Event}
    (h : w2.trace = w.trace ++ evs) : newEvents w w2 = evs := by
  simp [newEvents, h]

theorem gar_ext (pid mz d : String) (w : World) :
    ∃ evs, (getARecordFromCloudDNS pid mz d w).2.trace = w.trace ++ evs ∧
      (∀ e ∈ evs, e.isWrite = false) ∧
      (∀ err, (getARecordFromCloudDNS pid mz d w).1 = .error err → ∃ e ∈ evs, e.failed = true) := by
  unfold getARecordFromCloudDNS newService listRrsets World.log
  rcases h1 : nextErr w.svcErrs with _ | e1 <;> rcases h2 : nextErr w.listErrs with _ | e2 <;>
    simp [h1, h2, Event.isWrite, Event.failed]

theorem setARecord_ext (pid mz d ip : String) (w : World) :
    ∃ evs, (setARecord pid mz d ip w).2.trace = w.trace ++ evs := by
  simp only [setARecord, getARecordFromCloudDNS, newService, listRrsets, changesCreate, World.log]
  rcases h1 : nextErr w.svcErrs with _ | e1 <;> rcases h2 : nextErr w.svcErrs.tail with _ | e2 <;>
  rcases h3 : nextErr w.listErrs with _ | e3 <;> rcases h4 : nextErr w.createErrs with _ | e4 <;>
    simp [h1, h2, h3, h4]
  rcases h5 : applyChange w.zone (buildChange d ip (collectARecords w.zone d)) with _ | z <;>
    simp [h5]

theorem loopBody_ext (cfg : Config) (ip d : String) (w : World) :
    ∃ evs, (loopBody cfg ip d w).2.trace = w.trace ++ evs := by
  unfold loopBody
  obtain ⟨e1, h1, -⟩ := gar_ext cfg.projectID cfg.managedZone d w
  rcases hg : getARecordFromCloudDNS cfg.projectID cfg.managedZone d w with ⟨res, w1⟩
  rw [hg] at h1
  simp only at h1
  rcases res with e | recs
  · exact ⟨e1 ++ [.notify cfg.webhookURL e], by simp [post_snd, World.afterNotify, h1]⟩
  · rcases recs with _ | ⟨first, rest⟩
    · exact ⟨e1, by simp [h1]⟩
    · by_cases hf : first = ip
      · exact ⟨e1, by simp [hf, h1]⟩
      · simp only [hf, if_false, post_snd]
        obtain ⟨e2, h2⟩ := setARecord_ext cfg.projectID cfg.managedZone d ip
          (w1.afterNotify cfg.webhookURL ("Setting A records for " ++ d ++ " to " ++ ip))
        rcases hs : setARecord cfg.projectID cfg.managedZone d ip
          (w1.afterNotify cfg.webhookURL ("Setting A records for " ++ d ++ " to " ++ ip))
          with ⟨res2, w2⟩
        rw [hs] at h2
        simp only [World.afterNotify, h1] at h2
        rcases res2 with e | u
        · exact ⟨_, by simp [World.afterNotify, h2]; rfl⟩
        · exact ⟨_, by simp [h2]; rfl⟩

/-! ## Runs of the body of the loop -/

theorem loopBody_skip_run (cfg : Config) (ip d : String) (w : World) (rest : List String)
    (h : (getARecordFromCloudDNS cfg.projectID cfg.managedZone d w).1 = .ok (ip :: rest)) :
    (loopBody cfg ip d w).1 = .next ∧
    newEvents w (loopBody cfg ip d w).2 =
      [.read cfg.projectID cfg.managedZone d, .newService true, .list true] ∧
    (loopBody cfg ip d w).2.zone = w.zone := by
  obtain ⟨h1, h2, h3⟩ := (gar_ok_iff _ _ _ _ _).1 h
  simp [loopBody, gar_of_ok _ _ _ _ h1 h2, ← h3, newEvents, World.afterRead]

theorem loopBody_replace_run (cfg : Config) (ip d x : String)
    (rest : List String) (w : World)
    (hread : (getARecordFromCloudDNS cfg.projectID cfg.managedZone d w).1 = .ok (x :: rest))
    (hne : x ≠ ip)
    (hok : ∀ e ∈ newEvents w (loopBody cfg ip d w).2, e.failed = false) :
    (loopBody cfg ip d w).1 = .next ∧
    newEvents w (loopBody cfg ip d w).2 =
      [.read cfg.projectID cfg.managedZone d, .newService true, .list true,
       .notify cfg.webhookURL ("Setting A records for " ++ d ++ " to " ++ ip),
       .write cfg.projectID cfg.managedZone d ip, .newService true,
       .read cfg.projectID cfg.managedZone d, .newService true, .list true,
       .create
         { Additions := [{ Name := d ++ ".", Typ := "A", Ttl := 300, Rrdatas := [ip] }],
           Deletions := [{ Name := d ++ ".", Typ := "A", Ttl := 300, Rrdatas := x :: rest }] }
         true] ∧
    applyChange w.zone
      { Additions := [{ Name := d ++ ".", Typ := "A", Ttl := 300, Rrdatas := [ip] }],
        Deletions := [{ Name := d ++ ".", Typ := "A", Ttl := 300, Rrdatas := x :: rest }] } =
      some (loopBody cfg ip d w).2.zone := by
  obtain ⟨h1, h2, h3⟩ := (gar_ok_iff _ _ _ _ _).1 hread
  revert hok
  simp only [loopBody, gar_of_ok _ _ _ _ h1 h2, ← h3, post_snd, if_neg hne]
  simp only [setARecord, getARecordFromCloudDNS, newService, listRrsets, changesCreate,
    World.log, newEvents, World.afterRead, World.afterNotify, buildChange_eq]
  rcases h4 : nextErr w.svcErrs.tail with _ | e1 <;>
  rcases h5 : nextErr w.svcErrs.tail.tail with _ | e2 <;>
  rcases h6 : nextErr w.listErrs.tail with _ | e3 <;>
  rcases h7 : nextErr w.createErrs with _ | e4 <;>
    simp [h4, h5, h6, h7, ← h3, Event.failed]
  rcases h8 : applyChange w.zone
      { Additions := [{ Name := d ++ ".", Typ := "A", Ttl := 300, Rrdatas := [ip] }],
        Deletions := [{ Name := d ++ ".", Typ := "A", Ttl := 300, Rrdatas := x :: rest }] }
      with _ | z <;> simp [h8, Event.failed]

theorem loopBody_read_failed (cfg : Config) (ip d err : String) (w : World)
    (h : (getARecordFromCloudDNS cfg.projectID cfg.managedZone d w).1 = .error err) :
    (loopBody cfg ip d w).1 = .panicked ∧ (loopBody cfg ip d w).2.zone = w.zone ∧
    (∀ e ∈ newEvents w (loopBody cfg ip d w).2, e.isWrite = false) ∧
    (∃ e ∈ newEvents w (loopBody cfg ip d w).2, e.failed = true) := by
  revert h
  simp only [loopBody, getARecordFromCloudDNS, newService, listRrsets, World.log, newEvents,
    post_snd, World.afterNotify]
  rcases h1 : nextErr w.svcErrs with _ | e1 <;> rcases h2 : nextErr w.listErrs with _ | e2 <;>
    simp [h1, h2, Event.isWrite, Event.failed]

theorem loopBody_read_empty (cfg : Config) (ip d : String) (w : World)
    (h : (getARecordFromCloudDNS cfg.projectID cfg.managedZone d w).1 = .ok []) :
    (loopBody cfg ip d w).1 = .panicked ∧ (loopBody cfg ip d w).2.zone = w.zone ∧
    (∀ e ∈ newEvents w (loopBody cfg ip d w).2, e.isWrite = false) := by
  obtain ⟨h1, h2, h3⟩ := (gar_ok_iff _ _ _ _ _).1 h
  simp [loopBody, gar_of_ok _ _ _ _ h1 h2, ← h3, newEvents, World.afterRead, Event.isWrite]

theorem loopBody_second_cycle (cfg : Config) (ip d : String) (w : World)
    (h : collectARecords w.zone d = [] ∨ settled ip w.zone d) :
    (∀ e ∈ newEvents w (loopBody cfg ip d w).2, e.isWrite = false) ∧
    (loopBody cfg ip d w).2.zone = w.zone ∧
    (collectARecords w.zone d = [] → (loopBody cfg ip d w).1 = .panicked) := by
  rcases hg : (getARecordFromCloudDNS cfg.projectID cfg.managedZone d w).1 with err | recs
  · obtain ⟨a, b, c, -⟩ := loopBody_read_failed cfg ip d err w hg
    exact ⟨c, b, fun _ => a⟩
  · have hrec := ((gar_ok_iff _ _ _ _ _).1 hg).2.2
    rcases recs with _ | ⟨first, rest⟩
    · obtain ⟨a, b, c⟩ := loopBody_read_empty cfg ip d w hg
      exact ⟨c, b, fun _ => a⟩
    · rcases h with h | h
      · rw [h] at hrec; cases hrec
      · unfold settled at h
        rw [← hrec] at h
        simp at h
        subst h
        obtain ⟨a, b, c⟩ := loopBody_skip_run cfg first d w rest hg
        refine ⟨?_, c, fun h0 => ?_⟩
        · rw [b]; simp [Event.isWrite]
        · rw [h0] at hrec; cases hrec

theorem loopBody_first_cycle (cfg : Config) (ip d : String) (w : World)
    (hok : ∀ e ∈ newEvents w (loopBody cfg ip d w).2, e.failed = false) :
    (∀ d2, settled ip w.zone d2 → settled ip (loopBody cfg ip d w).2.zone d2) ∧
    (((loopBody cfg ip d w).1 = .panicked ∧
        collectARecords (loopBody cfg ip d w).2.zone d = []) ∨
      ((loopBody cfg ip d w).1 = .next ∧ settled ip (loopBody cfg ip d w).2.zone d)) := by
  rcases hg : (getARecordFromCloudDNS cfg.projectID cfg.managedZone d w).1 with err | recs
  · obtain ⟨-, -, -, e, he, hf⟩ := loopBody_read_failed cfg ip d err w hg
    rw [hok e he] at hf
    cases hf
  · have hrec := ((gar_ok_iff _ _ _ _ _).1 hg).2.2
    rcases recs with _ | ⟨first, rest⟩
    · obtain ⟨a, b, -⟩ := loopBody_read_empty cfg ip d w hg
      rw [b]
      exact ⟨fun _ h => h, Or.inl ⟨a, hrec.symm⟩⟩
    · by_cases hf : first = ip
      · subst hf
        obtain ⟨a, -, c⟩ := loopBody_skip_run cfg first d w rest hg
        rw [c]
        refine ⟨fun _ h => h, Or.inr ⟨a, ?_⟩⟩
        unfold settled
        rw [← hrec]
        rfl
      · obtain ⟨a, -, c⟩ := loopBody_replace_run cfg ip d first rest w hg hf hok
        obtain ⟨hm, hz⟩ := (applyChange_replace _ _ _ _).1 c
        rw [hz]
        constructor
        · intro d2 h2
          have hd : d2 ≠ d := by
            rintro rfl
            unfold settled at h2
            rw [← hrec] at h2
            simp at h2
            exact hf h2
          unfold settled at h2 ⊢
          rw [collect_eq, mv_replace_other _ _ _ _ _ hd, ← collect_eq]
          exact h2
        · refine Or.inr ⟨a, ?_⟩
          unfold settled
          rw [collect_eq, mv_replace_same _ _ _ _ (by rw [hrec, collect_eq]) hm]
          rfl

theorem loopBody_enters_writer (cfg : Config) (ip d x : String) (rest : List String)
    (w : World)
    (hread : (getARecordFromCloudDNS cfg.projectID cfg.managedZone d w).1 = .ok (x :: rest))
    (hne : x ≠ ip) :
    (newEvents w (loopBody cfg ip d w).2).take 5 =
      [.read cfg.projectID cfg.managedZone d, .newService true, .list true,
       .notify cfg.webhookURL ("Setting A records for " ++ d ++ " to " ++ ip),
       .write cfg.projectID cfg.managedZone d ip] := by
  obtain ⟨h1, h2, h3⟩ := (gar_ok_iff _ _ _ _ _).1 hread
  simp only [loopBody, gar_of_ok _ _ _ _ h1 h2, ← h3, post_snd, if_neg hne]
  simp only [setARecord, getARecordFromCloudDNS, newService, listRrsets, changesCreate,
    World.log, newEvents, World.afterRead, World.afterNotify, buildChange_eq]
  rcases h4 : nextErr w.svcErrs.tail with _ | e1 <;>
  rcases h5 : nextErr w.svcErrs.tail.tail with _ | e2 <;>
  rcases h6 : nextErr w.listErrs.tail with _ | e3 <;>
  rcases h7 : nextErr w.createErrs with _ | e4 <;>
    simp [h4, h5, h6, h7, ← h3]
  rcases h8 : applyChange w.zone
      { Additions := [{ Name := d ++ ".", Typ := "A", Ttl := 300, Rrdatas := [ip] }],
        Deletions := [{ Name := d ++ ".", Typ := "A", Ttl := 300, Rrdatas := x :: rest }] }
      with _ | z <;> simp [h8]

/-! ## Passes over the domain list -/

theorem reconcile_cons (cfg : Config) (ip d : String) (ds : List String) (w : World) :
    reconcile cfg ip (d :: ds) w =
      match loopBody cfg ip d w with
      | (.next, w) => reconcile cfg ip ds w
      | (o, w) => (o, w) := rfl

theorem reconcile_ext (cfg : Config) (ip : String) (ds : List String) :
    ∀ w : World, ∃ evs, (reconcile cfg ip ds w).2.trace = w.trace ++ evs := by
  induction ds with
  | nil => intro w; exact ⟨[], by simp [reconcile]⟩
  | cons d ds ih =>
    intro w
    obtain ⟨a, ha⟩ := loopBody_ext cfg ip d w
    rw [reconcile_cons]
    rcases hb : loopBody cfg ip d w with ⟨o, w1⟩
    rw [hb] at ha
    simp only at ha
    cases o
    · obtain ⟨b, hb2⟩ := ih w1
      exact ⟨a ++ b, by simp [hb2, ha]⟩
    · exact ⟨a, ha⟩
    · exact ⟨a, ha⟩

theorem reconcile_cons_split (cfg : Config) (ip d : String) (ds : List String) (w : World) :
    ∃ a b, newEvents w (loopBody cfg ip d w).2 = a ∧
      newEvents w (reconcile cfg ip (d :: ds) w).2 = a ++ b ∧
      (((loopBody cfg ip d w).1 = .next ∧
          reconcile cfg ip (d :: ds) w = reconcile cfg ip ds (loopBody cfg ip d w).2 ∧
          newEvents (loopBody cfg ip d w).2 (reconcile cfg ip ds (loopBody cfg ip d w).2).2 = b) ∨
        ((loopBody cfg ip d w).1 ≠ .next ∧
          reconcile cfg ip (d :: ds) w = loopBody cfg ip d w ∧ b = [])) := by
  obtain ⟨a, ha⟩ := loopBody_ext cfg ip d w
  refine ⟨a, ?_⟩
  rw [newEvents_of_append ha, reconcile_cons]
  rcases hb : loopBody cfg ip d w with ⟨o, w1⟩
  rw [hb] at ha
  simp only at ha
  cases o
  · obtain ⟨b, hb2⟩ := reconcile_ext cfg ip ds w1
    refine ⟨b, rfl, ?_, Or.inl ⟨rfl, rfl, newEvents_of_append hb2⟩⟩
    exact newEvents_of_append (by simp [hb2, ha])
  · exact ⟨[], rfl, by simpa using newEvents_of_append ha, Or.inr ⟨by simp, rfl, rfl⟩⟩
  · exact ⟨[], rfl, by simpa using newEvents_of_append ha, Or.inr ⟨by simp, rfl, rfl⟩⟩

theorem reconcile_second_cycle (cfg : Config) (ip : String) (ds : List String) :
    ∀ w : World, quiescent ip w.zone ds →
      ∀ e ∈ newEvents w (reconcile cfg ip ds w).2, e.isWrite = false := by
  induction ds with
  | nil => intro w _ e he; simp [reconcile, newEvents] at he
  | cons d ds ih =>
    intro w hq e he
    obtain ⟨a, b, ha, hab, hcase⟩ := reconcile_cons_split cfg ip d ds w
    have hq2 : collectARecords w.zone d = [] ∨ settled ip w.zone d := by
      rcases hq with h | h
      · exact Or.inl h
      · exact Or.inr h.1
    obtain ⟨hw, hz, hp⟩ := loopBody_second_cycle cfg ip d w hq2
    rw [hab] at he
    rcases List.mem_append.1 he with h | h
    · exact hw e (by rw [ha]; exact h)
    · rcases hcase with ⟨hn, -, hb⟩ | ⟨-, -, hb⟩
      · rcases hq with h0 | h0
        · rw [hp h0] at hn; cases hn
        · exact ih _ (by rw [hz]; exact h0.2) e (by rw [hb]; exact h)
      · rw [hb] at h; cases h

theorem reconcile_first_cycle (cfg : Config) (ip : String) (ds : List String) :
    ∀ (w : World) (S : List String), (∀ d ∈ S, settled ip w.zone d) →
      (∀ e ∈ newEvents w (reconcile cfg ip ds w).2, e.failed = false) →
      (∀ d ∈ S, settled ip (reconcile cfg ip ds w).2.zone d) ∧
        quiescent ip (reconcile cfg ip ds w).2.zone ds := by
  induction ds with
  | nil => intro w S hS _; exact ⟨hS, trivial⟩
  | cons d ds ih =>
    intro w S hS hok
    obtain ⟨a, b, ha, hab, hcase⟩ := reconcile_cons_split cfg ip d ds w
    rw [hab] at hok
    have hoka : ∀ e ∈ newEvents w (loopBody cfg ip d w).2, e.failed = false := by
      intro e he
      rw [ha] at he
      exact hok e (List.mem_append_left _ he)
    obtain ⟨hkeep, hd⟩ := loopBody_first_cycle cfg ip d w hoka
    rcases hcase with ⟨hn, heq, hb⟩ | ⟨hn, heq, -⟩
    · rw [heq]
      have hd2 : settled ip (loopBody cfg ip d w).2.zone d := by
        rcases hd with ⟨hp, -⟩ | ⟨-, h⟩
        · rw [hn] at hp; cases hp
        · exact h
      have hS2 : ∀ d2 ∈ d :: S, settled ip (loopBody cfg ip d w).2.zone d2 := by
        intro d2 h2
        rcases List.mem_cons.1 h2 with rfl | h2
        · exact hd2
        · exact hkeep d2 (hS d2 h2)
      obtain ⟨h1, h2⟩ := ih (loopBody cfg ip d w).2 (d :: S) hS2
        (fun e he => hok e (List.mem_append_right _ (by rw [← hb]; exact he)))
      exact ⟨fun d2 hd2 => h1 d2 (List.mem_cons_of_mem _ hd2),
        Or.inr ⟨h1 d (List.mem_cons_self _ _), h2⟩⟩
    · rw [heq]
      refine ⟨fun d2 h2 => hkeep d2 (hS d2 h2), ?_⟩
      rcases hd with ⟨-, h⟩ | ⟨hp, -⟩
      · exact Or.inl h
      · exact absurd hp hn

theorem changesOf_nil_of_no_write (evs : List Event) (h : ∀ e ∈ evs, e.isWrite = false) :
    changesOf evs = [] := by
  induction evs with
  | nil => rfl
  | cons e es ih =>
    have he := h e (List.mem_cons_self _ _)
    have hes := ih (fun e2 h2 => h e2 (List.mem_cons_of_mem _ h2))
    cases e <;> simp [Event.isWrite] at he <;> simp [changesOf, hes]

/-! ## Independence from the answers of the webhook -/

theorem gar_frame (pid mz d : String) (w : World) (c : List ChatResp) :
    getARecordFromCloudDNS pid mz d { w with chatResps := c } =
      ((getARecordFromCloudDNS pid mz d w).1,
       { (getARecordFromCloudDNS pid mz d w).2 with chatResps := c }) := by
  unfold getARecordFromCloudDNS newService listRrsets World.log
  rcases h1 : nextErr w.svcErrs with _ | e1 <;> rcases h2 : nextErr w.listErrs with _ | e2 <;>
    simp [h1, h2]

theorem setARecord_frame (pid mz d ip : String) (w : World) (c : List ChatResp) :
    setARecord pid mz d ip { w with chatResps := c } =
      ((setARecord pid mz d ip w).1, { (setARecord pid mz d ip w).2 with chatResps := c }) := by
  simp only [setARecord, getARecordFromCloudDNS, newService, listRrsets, changesCreate, World.log]
  rcases h1 : nextErr w.svcErrs with _ | e1 <;> rcases h2 : nextErr w.svcErrs.tail with _ | e2 <;>
  rcases h3 : nextErr w.listErrs with _ | e3 <;> rcases h4 : nextErr w.createErrs with _ | e4 <;>
    simp [h1, h2, h3, h4]
  rcases h5 : applyChange w.zone (buildChange d ip (collectARecords w.zone d)) with _ | z <;>
    simp [h5]

theorem loopBody_frame (cfg : Config) (ip d : String) (w : World) (c : List ChatResp) :
    ∃ c2, loopBody cfg ip d { w with chatResps := c } =
      ((loopBody cfg ip d w).1, { (loopBody cfg ip d w).2 with chatResps := c2 }) := by
  unfold loopBody
  rw [gar_frame]
  rcases hg : getARecordFromCloudDNS cfg.projectID cfg.managedZone d w with ⟨res, w1⟩
  rcases res with e | recs
  · exact ⟨c.tail, by simp [post_snd, World.afterNotify]⟩
  · rcases recs with _ | ⟨first, rest⟩
    · exact ⟨c, by simp⟩
    · by_cases hf : first = ip
      · exact ⟨c, by simp [hf]⟩
      · simp only [hf, if_false, post_snd]
        have hn : ∀ m, ({ w1 with chatResps := c } : World).afterNotify cfg.webhookURL m =
            { w1.afterNotify cfg.webhookURL m with chatResps := c.tail } := fun _ => rfl
        rw [hn, setARecord_frame]
        rcases hs : setARecord cfg.projectID cfg.managedZone d ip
          (w1.afterNotify cfg.webhookURL ("Setting A records for " ++ d ++ " to " ++ ip))
          with ⟨res2, w2⟩
        rcases res2 with e | u
        · exact ⟨c.tail.tail, by simp [World.afterNotify]⟩
        · exact ⟨c.tail, by simp⟩

theorem reconcile_frame (cfg : Config) (ip : String) (ds : List String) :
    ∀ (w : World) (c : List ChatResp), ∃ c2, reconcile cfg ip ds { w with chatResps := c } =
      ((reconcile cfg ip ds w).1, { (reconcile cfg ip ds w).2 with chatResps := c2 }) := by
  induction ds with
  | nil => intro w c; exact ⟨c, rfl⟩
  | cons d ds ih =>
    intro w c
    obtain ⟨c1, h1⟩ := loopBody_frame cfg ip d w c
    unfold reconcile
    rw [h1]
    rcases hb : loopBody cfg ip d w with ⟨o, w1⟩
    cases o
    · exact ih w1 c1
    · exact ⟨c1, rfl⟩
    · exact ⟨c1, rfl⟩

theorem mainLoop_frame (cfg : Config) (echo : List EchoResp) :
    ∀ (w : World) (c : List ChatResp), ∃ c2, mainLoop cfg echo { w with chatResps := c } =
      ((mainLoop cfg echo w).1, { (mainLoop cfg echo w).2 with chatResps := c2 }) := by
  induction echo with
  | nil => intro w c; exact ⟨c, rfl⟩
  | cons r rs ih =>
    intro w c
    unfold mainLoop
    cases r with
    | getFailed e => exact ⟨c.tail, by simp [getExternalIP, post_snd, World.afterNotify, World.log]⟩
    | readFailed e => exact ⟨c.tail, by simp [getExternalIP, post_snd, World.afterNotify, World.log]⟩
    | body ip =>
      simp only [getExternalIP]
      obtain ⟨c1, h1⟩ := reconcile_frame cfg ip cfg.domains (w.log .resolve) c
      have hl : ({ w with chatResps := c } : World).log .resolve =
          { w.log .resolve with chatResps := c } := rfl
      rw [hl, h1]
      rcases hb : reconcile cfg ip cfg.domains (w.log .resolve) with ⟨o, w1⟩
      cases o
      · exact ih (w1.log (.sleep cfg.waitInMinute)) c1
      · exact ⟨c1, rfl⟩
      · exact ⟨c1, rfl⟩

/-! ## The reader and the writer -/

/-- C6: when client creation and listing succeed, `getARecordFromCloudDNS` returns, with no
error, the data values of exactly the record sets of type A named `domain + "."`, concatenated
in the order of the list of the provider; with no matching record set the result is the empty
sequence, again with no error. -/
theorem getARecordFromCloudDNS_matching (pid mz d : String) (w : World)
    (hsvc : nextErr w.svcErrs = none) (hlist : nextErr w.listErrs = none) :
    (getARecordFromCloudDNS pid mz d w).1 = .ok (matchingValues w.zone d) ∧
    ((∀ rr ∈ w.zone, ¬ (rr.Typ = "A" ∧ rr.Name = d ++ ".")) →
      (getARecordFromCloudDNS pid mz d w).1 = .ok []) := by
  have h : (getARecordFromCloudDNS pid mz d w).1 = .ok (matchingValues w.zone d) := by
    rw [gar_of_ok _ _ _ _ hsvc hlist, collect_eq]
  refine ⟨h, fun hno => ?_⟩
  rw [h]
  have : w.zone.filter (fun rrset => rrset.Typ = "A" ∧ rrset.Name = d ++ ".") = [] := by
    rw [List.filter_eq_nil_iff]
    intro rr hrr
    simpa using hno rr hrr
  unfold matchingValues
  rw [this]
  rfl

theorem getARecordFromCloudDNS_matching_witness :
    (getARecordFromCloudDNS "proj" "zone" "a.example.com" (worldOf zoneEx)).1 = .ok ["1.2.3.4"] ∧
    (getARecordFromCloudDNS "proj" "zone" "b.example.com" (worldOf zoneEx)).1 = .ok [] :=
  ⟨(getARecordFromCloudDNS_matching "proj" "zone" "a.example.com" (worldOf zoneEx) rfl rfl).1,
   (getARecordFromCloudDNS_matching "proj" "zone" "b.example.com" (worldOf zoneEx) rfl rfl).2
     (by decide)⟩

/-- C5: the Change submitted by `setARecord` for a domain, an ip and the existing values `E`
that the reader returns for the zone.  Whenever the two client creations (the one of
`setARecord` and the one of its read) and the list call succeed, `setARecord` submits exactly
one Change, whether or not the provider then accepts it: its additions are the single record
set `domain + "."`, `"A"`, 300, `[ip]`, its deletions are empty when `E` is empty and
otherwise the single record set `domain + "."`, `"A"`, 300, `E`.  When one of these three
calls fails nothing is submitted, so a successful call has submitted exactly this Change.
Hence every record set sent has a name ending in a dot, and every deletion comes with exactly
one addition of the same name. -/
theorem setARecord_change (pid mz d ip : String) (w : World) :
    let E := collectARecords w.zone d
    let c : Change :=
      { Additions := [{ Name := d ++ ".", Typ := "A", Ttl := 300, Rrdatas := [ip] }],
        Deletions := if E = [] then []
          else [{ Name := d ++ ".", Typ := "A", Ttl := 300, Rrdatas := E }] }
    let r := setARecord pid mz d ip w
    (nextErr w.svcErrs = none → nextErr w.svcErrs.tail = none → nextErr w.listErrs = none →
      changesOf (newEvents w r.2) = [c]) ∧
    (¬ (nextErr w.svcErrs = none ∧ nextErr w.svcErrs.tail = none ∧ nextErr w.listErrs = none) →
      changesOf (newEvents w r.2) = []) ∧
    (changesOf (newEvents w r.2) = [c] ∨ changesOf (newEvents w r.2) = []) ∧
    (r.1 = .ok () → changesOf (newEvents w r.2) = [c]) ∧
    (∀ ch ∈ changesOf (newEvents w r.2),
      (∀ rr ∈ ch.Additions ++ ch.Deletions, ∃ s, rr.Name = s ++ ".") ∧
      (∀ del ∈ ch.Deletions, ∃ a, ch.Additions = [a] ∧ a.Name = del.Name)) := by
  intro E c r
  have key : (nextErr w.svcErrs = none → nextErr w.svcErrs.tail = none →
        nextErr w.listErrs = none → changesOf (newEvents w r.2) = [c]) ∧
      (¬ (nextErr w.svcErrs = none ∧ nextErr w.svcErrs.tail = none ∧
          nextErr w.listErrs = none) → changesOf (newEvents w r.2) = []) ∧
      (changesOf (newEvents w r.2) = [c] ∨ changesOf (newEvents w r.2) = []) ∧
      (r.1 = .ok () → changesOf (newEvents w r.2) = [c]) := by
    simp only [r, c, E, setARecord, getARecordFromCloudDNS, newService, listRrsets, changesCreate,
      World.log, newEvents, buildChange_eq]
    rcases h1 : nextErr w.svcErrs with _ | e1 <;> rcases h2 : nextErr w.svcErrs.tail with _ | e2 <;>
    rcases h3 : nextErr w.listErrs with _ | e3 <;> rcases h4 : nextErr w.createErrs with _ | e4 <;>
      simp [h1, h2, h3, h4, changesOf]
    rcases h5 : applyChange w.zone
      { Additions := [{ Name := d ++ ".", Typ := "A", Ttl := 300, Rrdatas := [ip] }],
        Deletions := if collectARecords w.zone d = [] then []
          else [{ Name := d ++ ".", Typ := "A", Ttl := 300, Rrdatas := collectARecords w.zone d }] }
      with _ | z <;> simp [h5, changesOf]
  refine ⟨key.1, key.2.1, key.2.2.1, key.2.2.2, ?_⟩
  intro ch hch
  have hc : ch = c := by
    rcases key.2.2.1 with h | h <;> rw [h] at hch <;> simp at hch
    exact hch
  subst hc
  constructor
  · intro rr hrr
    refine ⟨d, ?_⟩
    simp only [c] at hrr
    split_ifs at hrr <;> simp at hrr <;> rcases hrr with rfl | rfl <;> rfl
  · intro del hdel
    simp only [c] at hdel
    split_ifs at hdel <;> simp at hdel
    subst hdel
    exact ⟨_, rfl, rfl⟩

theorem setARecord_change_witness :
    changesOf (newEvents (worldOf zoneEx)
      (setARecord "proj" "zone" "a.example.com" "5.6.7.8" (worldOf zoneEx)).2) =
      [{ Additions := [{ Name := "a.example.com.", Typ := "A", Ttl := 300, Rrdatas := ["5.6.7.8"] }],
         Deletions := [{ Name := "a.example.com.", Typ := "A", Ttl := 300,
                         Rrdatas := ["1.2.3.4"] }] }] ∧
    changesOf (newEvents (worldOf zoneEx)
      (setARecord "proj" "zone" "b.example.com" "5.6.7.8" (worldOf zoneEx)).2) =
      [{ Additions := [{ Name := "b.example.com.", Typ := "A", Ttl := 300, Rrdatas := ["5.6.7.8"] }],
         Deletions := [] }] ∧
    ((setARecord "proj" "zone" "a.example.com" "5.6.7.8" (worldOf zoneTtl600)).1 =
        .error "failed to create DNS change: precondition not met" ∧
      changesOf (newEvents (worldOf zoneTtl600)
        (setARecord "proj" "zone" "a.example.com" "5.6.7.8" (worldOf zoneTtl600)).2) =
        [{ Additions := [{ Name := "a.example.com.", Typ := "A", Ttl := 300,
                           Rrdatas := ["5.6.7.8"] }],
           Deletions := [{ Name := "a.example.com.", Typ := "A", Ttl := 300,
                           Rrdatas := ["1.2.3.4"] }] }]) ∧
    changesOf (newEvents worldNoKey
      (setARecord "proj" "zone" "a.example.com" "5.6.7.8" worldNoKey).2) = [] :=
  ⟨(setARecord_change "proj" "zone" "a.example.com" "5.6.7.8" (worldOf zoneEx)).1 rfl rfl rfl,
   (setARecord_change "proj" "zone" "b.example.com" "5.6.7.8" (worldOf zoneEx)).1 rfl rfl rfl,
   ⟨rfl,
    (setARecord_change "proj" "zone" "a.example.com" "5.6.7.8" (worldOf zoneTtl600)).1
      rfl rfl rfl⟩,
   (setARecord_change "proj" "zone" "a.example.com" "5.6.7.8" worldNoKey).2.1 (by decide)⟩

/-! ## The body of the loop over the domains -/

/-- C1 (the code departs from it): for `b.example.com`, which has no A record, the read
succeeds with the empty sequence, and the body of the loop then panics at `aRecords[0]`:
`setARecord` is never entered and no Change is submitted. -/
theorem loopBody_no_record_panics :
    (getARecordFromCloudDNS "proj" "zone" "b.example.com" (worldOf zoneEx)).1 = .ok [] ∧
    (loopBody cfgEx "5.6.7.8" "b.example.com" (worldOf zoneEx)).1 = .panicked ∧
    (loopBody cfgEx "5.6.7.8" "b.example.com" (worldOf zoneEx)).2.trace =
      [.read "proj" "zone" "b.example.com", .newService true, .list true] :=
  ⟨rfl, rfl, rfl⟩

/-- C2 (the code departs from it): when the read of the first domain fails, the error is
sent to the webhook and the body then panics at `aRecords[0]` on the nil slice; the loop
over the domains ends there and the second domain is never read. -/
theorem reconcile_read_failure_panics :
    (getARecordFromCloudDNS "proj" "zone" "a.example.com" worldNoKey).1 =
      .error "failed to create DNS service: open key.json: no such file or directory" ∧
    (reconcile cfgEx "5.6.7.8" ["a.example.com", "b.example.com"] worldNoKey).1 = .panicked ∧
    (reconcile cfgEx "5.6.7.8" ["a.example.com", "b.example.com"] worldNoKey).2.trace =
      [.read "proj" "zone" "a.example.com", .newService false,
       .notify "hook"
         "failed to create DNS service: open key.json: no such file or directory"] :=
  ⟨rfl, rfl, rfl⟩

/-- C3: when the read succeeds with a non-empty sequence whose first value is the resolved
ip, the body completes having made the read only: `setARecord` is not entered, no Change is
submitted and no notification is sent; the zone is left as it was. -/
theorem loopBody_skips_when_first_equal (cfg : Config) (ip d : String) (w : World)
    (rest : List String)
    (h : (getARecordFromCloudDNS cfg.projectID cfg.managedZone d w).1 = .ok (ip :: rest)) :
    (loopBody cfg ip d w).1 = .next ∧
    newEvents w (loopBody cfg ip d w).2 =
      [.read cfg.projectID cfg.managedZone d, .newService true, .list true] ∧
    (loopBody cfg ip d w).2.zone = w.zone :=
  loopBody_skip_run cfg ip d w rest h

theorem loopBody_skips_when_first_equal_witness :
    (getARecordFromCloudDNS "proj" "zone" "a.example.com" (worldOf zoneEx)).1 =
      .ok ["1.2.3.4"] ∧
    (loopBody cfgEx "1.2.3.4" "a.example.com" (worldOf zoneEx)).1 = .next ∧
    newEvents (worldOf zoneEx) (loopBody cfgEx "1.2.3.4" "a.example.com" (worldOf zoneEx)).2 =
      [.read "proj" "zone" "a.example.com", .newService true, .list true] ∧
    (loopBody cfgEx "1.2.3.4" "a.example.com" (worldOf zoneEx)).2.zone = zoneEx :=
  ⟨rfl, loopBody_skips_when_first_equal cfgEx "1.2.3.4" "a.example.com" (worldOf zoneEx) [] rfl⟩

/-- C4: when the read succeeds with a non-empty sequence whose first value differs from the
resolved ip and no provider call made by the body fails (the zone changes only through
accepted Changes, so the writer reads what the loop read), the body sends exactly one
notification, `Setting A records for <domain> to <ip>`, enters `setARecord` exactly once, and
that call submits exactly one Change: its deletion record set carries the values read, its
addition record set carries `[ip]`. -/
theorem loopBody_replaces_when_first_differs (cfg : Config) (ip d x : String)
    (rest : List String) (w : World)
    (hread : (getARecordFromCloudDNS cfg.projectID cfg.managedZone d w).1 = .ok (x :: rest))
    (hne : x ≠ ip)
    (hok : ∀ e ∈ newEvents w (loopBody cfg ip d w).2, e.failed = false) :
    (loopBody cfg ip d w).1 = .next ∧
    newEvents w (loopBody cfg ip d w).2 =
      [.read cfg.projectID cfg.managedZone d, .newService true, .list true,
       .notify cfg.webhookURL ("Setting A records for " ++ d ++ " to " ++ ip),
       .write cfg.projectID cfg.managedZone d ip, .newService true,
       .read cfg.projectID cfg.managedZone d, .newService true, .list true,
       .create
         { Additions := [{ Name := d ++ ".", Typ := "A", Ttl := 300, Rrdatas := [ip] }],
           Deletions := [{ Name := d ++ ".", Typ := "A", Ttl := 300, Rrdatas := x :: rest }] }
         true] :=
  have h := loopBody_replace_run cfg ip d x rest w hread hne hok
  ⟨h.1, h.2.1⟩

theorem loopBody_replaces_when_first_differs_witness :
    (loopBody cfgEx "5.6.7.8" "a.example.com" (worldOf zoneEx)).1 = .next ∧
    newEvents (worldOf zoneEx) (loopBody cfgEx "5.6.7.8" "a.example.com" (worldOf zoneEx)).2 =
      [.read "proj" "zone" "a.example.com", .newService true, .list true,
       .notify "hook" ("Setting A records for " ++ "a.example.com" ++ " to " ++ "5.6.7.8"),
       .write "proj" "zone" "a.example.com" "5.6.7.8", .newService true,
       .read "proj" "zone" "a.example.com", .newService true, .list true,
       .create
         { Additions := [{ Name := "a.example.com" ++ ".", Typ := "A", Ttl := 300,
                           Rrdatas := ["5.6.7.8"] }],
           Deletions := [{ Name := "a.example.com" ++ ".", Typ := "A", Ttl := 300,
                           Rrdatas := ["1.2.3.4"] }] }
         true] :=
  loopBody_replaces_when_first_differs cfgEx "5.6.7.8" "a.example.com" "1.2.3.4" []
    (worldOf zoneEx) rfl (by decide) (by decide)

/-- C10: the decision to skip looks at the first existing value only.  If the sequence read
is `ip :: rest`, whatever `rest` holds, the body completes without entering `setARecord` or
submitting a Change, and the zone still holds `ip :: rest` for the domain.  If the first value
differs from ip while ip occurs later in the sequence, `setARecord` is entered all the same,
and, its client creation and read succeeding, it submits the Change that deletes the whole
sequence read and adds `[ip]`. -/
theorem skip_decided_by_first_value (cfg : Config) (ip d : String) (w : World) :
    (∀ rest : List String,
      (getARecordFromCloudDNS cfg.projectID cfg.managedZone d w).1 = .ok (ip :: rest) →
        (loopBody cfg ip d w).1 = .next ∧
        (∀ e ∈ newEvents w (loopBody cfg ip d w).2, e.isWrite = false) ∧
        collectARecords (loopBody cfg ip d w).2.zone d = ip :: rest) ∧
    (∀ (x : String) (rest : List String),
      (getARecordFromCloudDNS cfg.projectID cfg.managedZone d w).1 = .ok (x :: rest) →
      x ≠ ip → ip ∈ rest →
        Event.write cfg.projectID cfg.managedZone d ip ∈ newEvents w (loopBody cfg ip d w).2 ∧
        ((∀ e ∈ newEvents w (loopBody cfg ip d w).2,
            e ≠ .newService false ∧ e ≠ .list false) →
          changesOf (newEvents w (loopBody cfg ip d w).2) =
            [{ Additions := [{ Name := d ++ ".", Typ := "A", Ttl := 300, Rrdatas := [ip] }],
               Deletions := [{ Name := d ++ ".", Typ := "A", Ttl := 300,
                               Rrdatas := x :: rest }] }])) := by
  constructor
  · intro rest h
    obtain ⟨h1, h2, h3⟩ := (gar_ok_iff _ _ _ _ _).1 h
    simp [loopBody, gar_of_ok _ _ _ _ h1 h2, ← h3, newEvents, World.afterRead, Event.isWrite]
  · intro x rest hread hne _
    obtain ⟨h1, h2, h3⟩ := (gar_ok_iff _ _ _ _ _).1 hread
    simp only [loopBody, gar_of_ok _ _ _ _ h1 h2, ← h3, post_snd, if_neg hne]
    simp only [setARecord, getARecordFromCloudDNS, newService, listRrsets, changesCreate,
      World.log, newEvents, World.afterRead, World.afterNotify, buildChange_eq]
    rcases h4 : nextErr w.svcErrs.tail with _ | e1 <;>
    rcases h5 : nextErr w.svcErrs.tail.tail with _ | e2 <;>
    rcases h6 : nextErr w.listErrs.tail with _ | e3 <;>
    rcases h7 : nextErr w.createErrs with _ | e4 <;>
      simp [h4, h5, h6, h7, ← h3, changesOf]
    rcases h8 : applyChange w.zone
        { Additions := [{ Name := d ++ ".", Typ := "A", Ttl := 300, Rrdatas := [ip] }],
          Deletions := [{ Name := d ++ ".", Typ := "A", Ttl := 300, Rrdatas := x :: rest }] }
        with _ | z <;> simp [h8, changesOf]

theorem skip_decided_by_first_value_witness :
    ((loopBody cfgEx "9.9.9.9" "a.example.com" (worldOf zoneStale)).1 = .next ∧
      (∀ e ∈ newEvents (worldOf zoneStale)
          (loopBody cfgEx "9.9.9.9" "a.example.com" (worldOf zoneStale)).2, e.isWrite = false) ∧
      collectARecords (loopBody cfgEx "9.9.9.9" "a.example.com" (worldOf zoneStale)).2.zone
        "a.example.com" = ["9.9.9.9", "5.6.7.8"]) ∧
    changesOf (newEvents (worldOf zoneStale)
        (loopBody cfgEx "5.6.7.8" "a.example.com" (worldOf zoneStale)).2) =
      [{ Additions := [{ Name := "a.example.com.", Typ := "A", Ttl := 300,
                         Rrdatas := ["5.6.7.8"] }],
         Deletions := [{ Name := "a.example.com.", Typ := "A", Ttl := 300,
                         Rrdatas := ["9.9.9.9", "5.6.7.8"] }] }] :=
  ⟨(skip_decided_by_first_value cfgEx "9.9.9.9" "a.example.com" (worldOf zoneStale)).1
      ["5.6.7.8"] rfl,
   ((skip_decided_by_first_value cfgEx "5.6.7.8" "a.example.com" (worldOf zoneStale)).2
      "9.9.9.9" ["5.6.7.8"] rfl (by decide) (by decide)).2 (by decide)⟩

/-! ## The cycle and the endless loop -/

/-- C7: when `getExternalIP` fails at the start of a cycle, the loop sends exactly one
notification, carrying the message of the error, makes no DNS read and no DNS write for any
domain, and returns: there is no sleep and no further cycle, whatever answers were still
scripted for later cycles. -/
theorem mainLoop_halts_on_ip_failure (cfg : Config) (r : EchoResp) (rs : List EchoResp)
    (w : World) (msg : String) (h : (getExternalIP r w).1 = .error msg) :
    (mainLoop cfg (r :: rs) w).1 = .returned ∧
    newEvents w (mainLoop cfg (r :: rs) w).2 = [.resolve, .notify cfg.webhookURL msg] ∧
    (mainLoop cfg (r :: rs) w).2.zone = w.zone := by
  cases r <;> simp [getExternalIP] at h <;> subst h <;>
    simp [mainLoop, getExternalIP, post_snd, World.afterNotify, World.log, newEvents]

theorem mainLoop_halts_on_ip_failure_witness :
    (mainLoop cfgEx [.getFailed "no such host", .body "5.6.7.8"] (worldOf zoneEx)).1 =
      .returned ∧
    newEvents (worldOf zoneEx)
      (mainLoop cfgEx [.getFailed "no such host", .body "5.6.7.8"] (worldOf zoneEx)).2 =
      [.resolve, .notify "hook" "no such host"] ∧
    (mainLoop cfgEx [.getFailed "no such host", .body "5.6.7.8"] (worldOf zoneEx)).2.zone =
      zoneEx :=
  mainLoop_halts_on_ip_failure cfgEx (.getFailed "no such host") [.body "5.6.7.8"]
    (worldOf zoneEx) "no such host" rfl

/-- C8: idempotence.  Run the pass over the domains from any world, with any domain list and
resolved ip; if no provider call of that pass failed, then a second pass with the same ip,
started from the world the first one left, submits no Change and does not even enter
`setARecord`. -/
theorem reconcile_idempotent (cfg : Config) (ip : String) (ds : List String) (w : World)
    (hok : ∀ e ∈ newEvents w (reconcile cfg ip ds w).2, e.failed = false) :
    changesOf (newEvents (reconcile cfg ip ds w).2
      (reconcile cfg ip ds (reconcile cfg ip ds w).2).2) = [] ∧
    ∀ e ∈ newEvents (reconcile cfg ip ds w).2
      (reconcile cfg ip ds (reconcile cfg ip ds w).2).2, e.isWrite = false := by
  have hq := (reconcile_first_cycle cfg ip ds w [] (by simp) hok).2
  have h2 := reconcile_second_cycle cfg ip ds _ hq
  exact ⟨changesOf_nil_of_no_write _ h2, h2⟩

theorem reconcile_idempotent_witness :
    changesOf (newEvents (worldOf zoneBoth)
      (reconcile cfgEx "5.6.7.8" cfgEx.domains (worldOf zoneBoth)).2) =
      [{ Additions := [{ Name := "a.example.com.", Typ := "A", Ttl := 300,
                         Rrdatas := ["5.6.7.8"] }],
         Deletions := [{ Name := "a.example.com.", Typ := "A", Ttl := 300,
                         Rrdatas := ["1.2.3.4"] }] },
       { Additions := [{ Name := "b.example.com.", Typ := "A", Ttl := 300,
                         Rrdatas := ["5.6.7.8"] }],
         Deletions := [{ Name := "b.example.com.", Typ := "A", Ttl := 300,
                         Rrdatas := ["9.9.9.9", "5.6.7.8"] }] }] ∧
    changesOf (newEvents (reconcile cfgEx "5.6.7.8" cfgEx.domains (worldOf zoneBoth)).2
      (reconcile cfgEx "5.6.7.8" cfgEx.domains
        (reconcile cfgEx "5.6.7.8" cfgEx.domains (worldOf zoneBoth)).2).2) = [] :=
  ⟨rfl, (reconcile_idempotent cfgEx "5.6.7.8" cfgEx.domains (worldOf zoneBoth)
    (by decide)).1⟩

/-- C9: the answers of the webhook do not steer the DNS operations.  Two runs of the loop
from worlds that differ only in the scripted answers of the webhook end the same way, log
the same calls in the same order (so the same DNS reads and the same submitted Changes) and
leave the same zone.  In particular, whatever the webhook answers to the status notification,
the body goes on to enter `setARecord` right after it. -/
theorem notifications_do_not_steer (cfg : Config) (echo : List EchoResp) (w : World)
    (c1 c2 : List ChatResp) :
    (mainLoop cfg echo { w with chatResps := c1 }).1 =
      (mainLoop cfg echo { w with chatResps := c2 }).1 ∧
    (mainLoop cfg echo { w with chatResps := c1 }).2.trace =
      (mainLoop cfg echo { w with chatResps := c2 }).2.trace ∧
    (mainLoop cfg echo { w with chatResps := c1 }).2.zone =
      (mainLoop cfg echo { w with chatResps := c2 }).2.zone ∧
    (∀ (ip d x : String) (rest : List String),
      (getARecordFromCloudDNS cfg.projectID cfg.managedZone d { w with chatResps := c1 }).1 =
        .ok (x :: rest) → x ≠ ip →
      (newEvents { w with chatResps := c1 }
          (loopBody cfg ip d { w with chatResps := c1 }).2).take 5 =
        [.read cfg.projectID cfg.managedZone d, .newService true, .list true,
         .notify cfg.webhookURL ("Setting A records for " ++ d ++ " to " ++ ip),
         .write cfg.projectID cfg.managedZone d ip]) := by
  obtain ⟨a, ha⟩ := mainLoop_frame cfg echo w c1
  obtain ⟨b, hb⟩ := mainLoop_frame cfg echo w c2
  rw [ha, hb]
  exact ⟨rfl, rfl, rfl, fun ip d x rest hread hne =>
    loopBody_enters_writer cfg ip d x rest _ hread hne⟩

theorem notifications_do_not_steer_witness :
    (newEvents worldChatDown (loopBody cfgEx "5.6.7.8" "a.example.com" worldChatDown).2).take 5 =
      [.read "proj" "zone" "a.example.com", .newService true, .list true,
       .notify "hook" ("Setting A records for " ++ "a.example.com" ++ " to " ++ "5.6.7.8"),
       .write "proj" "zone" "a.example.com" "5.6.7.8"] :=
  (notifications_do_not_steer cfgEx [] (worldOf zoneEx)
    [.status 500 "500 Internal Server Error", .status 500 "500 Internal Server Error"] []).2.2.2
    "5.6.7.8" "a.example.com" "1.2.3.4" [] rfl (by decide)

end DnsRefresher
